import Mathlib

/-!
Verification of the CLIMARISK-OG multi-hazard point risk analytics engine.

The definitions below are a shallow embedding, over `ℚ`, of the numerical
core of `backend/app/services/zarr_reader.py` (hazard classification,
combination modes, exceedance plotting positions, and the actuarial
pricing pipeline of `get_multi_risk_point`) and of
`backend/app/services/climada_impact.py` (vulnerability-curve damage
ratios via `np.interp`-style piecewise-linear interpolation).

Conventions:
* machine floats are modelled as exact rationals (`ℚ`);
* a possibly-NaN float is modelled as `Option ℚ` with `none` standing for
  NaN: every ordered comparison against NaN is false, exactly as in IEEE
  semantics used by the numpy expressions in the source;
* `np.sort` is modelled by insertion sort, which produces the same list
  as any sorting algorithm on a linear order;
* Python dictionaries are modelled as functions into `Option`.
-/

/- ────────────────────────────────────────────────────────────────────────
   Generic numeric helpers mirroring the numpy primitives used in the code
   ──────────────────────────────────────────────────────────────────────── -/

/-- `np.clip(x, lo, hi)`: `min(hi, max(x, lo))`. -/
def npClip (x lo hi : ℚ) : ℚ := min hi (max x lo)

/-- `np.sort` (ascending) on a list of finite floats. -/
def sortAsc (l : List ℚ) : List ℚ := List.insertionSort (· ≤ ·) l

/-- `np.sort(...)[::-1]`: sorted descending, as in the exceedance blocks. -/
def sortDesc (l : List ℚ) : List ℚ := (sortAsc l).reverse

/-- `np.mean` over a list of finite values (`sum / size`; the engine only
takes means of nonempty arrays). -/
def npMean (l : List ℚ) : ℚ := l.sum / (l.length : ℚ)

/-- `np.nanmax` over a list of finite values (0 placeholder on empty). -/
def npMax : List ℚ → ℚ
  | [] => 0
  | x :: xs => xs.foldl max x

/-- Integer floor of a rational, written so that it evaluates by kernel
reduction (`⌊x⌋` for `ℚ` is kernel-opaque in this toolchain). -/
def ratFloor (x : ℚ) : ℤ := x.num / x.den

theorem ratFloor_eq_floor (x : ℚ) : ratFloor x = ⌊x⌋ := (Rat.floor_def).symm

/-- `np.nanquantile(l, q)` with the default "linear" interpolation method:
virtual position `q·(n−1)` in the ascending sorted array, linear
interpolation between the two neighbouring order statistics. -/
def quantileLinear (l : List ℚ) (q : ℚ) : ℚ :=
  let s := sortAsc l
  if s.length = 0 then 0
  else
    let n : ℕ := s.length
    let pos : ℚ := q * ((n : ℚ) - 1)
    let i : ℕ := (ratFloor pos).toNat
    let g : ℚ := pos - (i : ℚ)
    let lo := s.getD i 0
    let hi := s.getD (min (i + 1) (n - 1)) 0
    lo + g * (hi - lo)

/-- `np.nanpercentile(l, p)` = quantile at `p / 100`. -/
def percentile (l : List ℚ) (p : ℚ) : ℚ := quantileLinear l (p / 100)

/-- Python's `str.lower()` restricted to the method names the engine
compares against. -/
def strLower (s : String) : String := String.mk (s.data.map Char.toLower)

/- ────────────────────────────────────────────────────────────────────────
   Hazard classifier (zarr_reader.py, get_multi_risk_point lines 412-430)
   ──────────────────────────────────────────────────────────────────────── -/

/-- One element of
`status = np.where(values >= attention, 2, status)` followed by
`status = np.where((values >= operational) & (values < attention), 1, status)`
starting from `np.zeros_like`. -/
def classifyStep (operational attention x : ℚ) : ℕ :=
  let s0 : ℕ := 0
  let s1 : ℕ := if x ≥ attention then 2 else s0
  if x ≥ operational ∧ x < attention then 1 else s1

/-- Elementwise classification of a whole intensity series. -/
def classifySeries (operational attention : ℚ) (values : List ℚ) : List ℕ :=
  values.map (classifyStep operational attention)

/-- A float that may be NaN (`none`). -/
abbrev FVal : Type := Option ℚ

/-- `x >= c` on possibly-NaN floats: false when `x` is NaN. -/
def fge (x : FVal) (c : ℚ) : Bool :=
  match x with
  | none => false
  | some v => decide (v ≥ c)

/-- `x < c` on possibly-NaN floats: false when `x` is NaN. -/
def flt (x : FVal) (c : ℚ) : Bool :=
  match x with
  | none => false
  | some v => decide (v < c)

/-- The same two-stage `np.where` classifier, on possibly-NaN intensities. -/
def classifyStepF (operational attention : ℚ) (x : FVal) : ℕ :=
  let s0 : ℕ := 0
  let s1 : ℕ := if fge x attention then 2 else s0
  if fge x operational && flt x attention then 1 else s1

/-- Classification of a possibly-NaN series. -/
def classifySeriesF (operational attention : ℚ) (values : List FVal) : List ℕ :=
  values.map (classifyStepF operational attention)

/-- `int(np.sum(status == k))`: the per-state hour count reported in
`hazards_out` (sample count used directly as hours). -/
def hoursInState (status : List ℕ) (k : ℕ) : ℕ :=
  (status.filter (fun s => s = k)).length

/- ────────────────────────────────────────────────────────────────────────
   Legacy discrete loss model (lines 476-498 and 706-717)
   ──────────────────────────────────────────────────────────────────────── -/

/-- `attention_factor = float(np.clip(attention_loss_factor, 0.0, 1.0))`. -/
def attentionFactor (attentionLossFactor : ℚ) : ℚ :=
  npClip attentionLossFactor 0 1

/-- `stop_factor = float(max(stop_loss_factor, attention_factor))`. -/
def stopFactor (stopLossFactor attentionLossFactor : ℚ) : ℚ :=
  max stopLossFactor (attentionFactor attentionLossFactor)

/-- One element of
`np.where(status == 2, stop_factor, np.where(status == 1, attention_factor, 0.0))`,
the legacy discrete loss-ratio model applied to a state code. -/
def discreteLossFactor (attentionLossFactor stopLossFactor : ℚ) (s : ℕ) : ℚ :=
  if s = 2 then stopFactor stopLossFactor attentionLossFactor
  else if s = 1 then attentionFactor attentionLossFactor
  else 0

/-- The discrete loss-ratio series for a state series. -/
def discreteLossRatio (attentionLossFactor stopLossFactor : ℚ)
    (status : List ℕ) : List ℚ :=
  status.map (discreteLossFactor attentionLossFactor stopLossFactor)

/- ────────────────────────────────────────────────────────────────────────
   Vulnerability Curve Store (climada_impact.py)
   ──────────────────────────────────────────────────────────────────────── -/

/-- A calibrated impact curve: intensities with MDD and PAA samples. -/
structure ImpactCurve where
  intensity : List ℚ
  mdd : List ℚ
  paa : List ℚ

/-- `_fpso_wind_curve` (intensity in knots). -/
def fpsoWindCurve : ImpactCurve :=
  { intensity := [0, 10, 15, 20, 25, 30, 35, 40, 45, 50, 55, 65]
    mdd := [0, 0.01, 0.04, 0.08, 0.14, 0.24, 0.35, 0.50, 0.65, 0.78, 0.88, 0.95]
    paa := [0, 0.10, 0.30, 0.60, 0.85, 1, 1, 1, 1, 1, 1, 1] }

/-- `_fpso_wave_curve` (significant wave height in meters). -/
def fpsoWaveCurve : ImpactCurve :=
  { intensity := [0, 1.5, 2.5, 3.5, 4.5, 5.5, 6.5, 8, 10, 12]
    mdd := [0, 0.01, 0.04, 0.10, 0.22, 0.38, 0.55, 0.72, 0.85, 0.93]
    paa := [0, 0.10, 0.40, 0.70, 1, 1, 1, 1, 1, 1] }

/-- `_subsea_wave_curve`. -/
def subseaWaveCurve : ImpactCurve :=
  { intensity := [0, 3, 5, 7, 9, 12, 15]
    mdd := [0, 0, 0.03, 0.10, 0.28, 0.55, 0.80]
    paa := [0, 0, 0.20, 0.60, 1, 1, 1] }

/-- The zero wind curve registered for `subsea_pipeline` wind. -/
def subseaWindCurve : ImpactCurve :=
  { intensity := [0, 100], mdd := [0, 0], paa := [0, 0] }

/-- `_generic_wind_step_curve` (legacy 3-state replica). -/
def genericWindStepCurve : ImpactCurve :=
  { intensity := [0, 14.9, 15, 19.9, 20, 100]
    mdd := [0, 0, 0.35, 0.35, 1, 1]
    paa := [1, 1, 1, 1, 1, 1] }

/-- `_generic_wave_step_curve`. -/
def genericWaveStepCurve : ImpactCurve :=
  { intensity := [0, 1.9, 2, 3.9, 4, 20]
    mdd := [0, 0, 0.35, 0.35, 1, 1]
    paa := [1, 1, 1, 1, 1, 1] }

/-- CLIMADA hazard type codes. -/
def HAZ_WIND : String := "WS"
def HAZ_WAVE : String := "OW"

/-- The asset types with entries in `OffshoreImpactFunctions._registry`. -/
def registeredAssetTypes : List String :=
  ["fpso", "fixed_platform", "support_vessel", "subsea_pipeline", "generic_offshore"]

/-- `OffshoreImpactFunctions.get`: unknown asset types fall back to the
`generic_offshore` entry; unknown hazard codes give `none`. -/
def curveLookup (assetType hazType : String) : Option ImpactCurve :=
  let key := if assetType ∈ registeredAssetTypes then assetType else "generic_offshore"
  let pair : ImpactCurve × ImpactCurve :=
    if key = "fpso" ∨ key = "fixed_platform" ∨ key = "support_vessel" then
      (fpsoWindCurve, fpsoWaveCurve)
    else if key = "subsea_pipeline" then (subseaWindCurve, subseaWaveCurve)
    else (genericWindStepCurve, genericWaveStepCurve)
  if hazType = HAZ_WIND then some pair.1
  else if hazType = HAZ_WAVE then some pair.2
  else none

/-- `np.interp` inner loop: `t0, y0` is the last node at or left of `x`
(invariant `t0 ≤ x` at every call), `rgt` is the right fill value. -/
def npInterpGo (t0 y0 : ℚ) : List (ℚ × ℚ) → ℚ → ℚ → ℚ
  | [], rgt, x => if x > t0 then rgt else y0
  | p :: rest, rgt, x =>
      if x ≤ p.1 then y0 + (x - t0) * (p.2 - y0) / (p.1 - t0)
      else npInterpGo p.1 p.2 rest rgt x

/-- `np.interp(x, xs, ys, left, right)` for strictly increasing `xs`,
with the node list given as pairs. -/
def npInterp (pts : List (ℚ × ℚ)) (lft rgt x : ℚ) : ℚ :=
  match pts with
  | [] => lft
  | p :: rest => if x < p.1 then lft else npInterpGo p.1 p.2 rest rgt x

/-- The MDR node values of a curve: `mdd * paa`, pointwise. -/
def mdrCurve (c : ImpactCurve) : List ℚ := List.zipWith (· * ·) c.mdd c.paa

/-- `ClimadaImpactService.calc_damage_ratio` at a single intensity:
`np.clip(np.interp(x, intensity, mdd*paa, left=0, right=mdr[-1]), 0, 1)`,
and all zeros when no curve exists for the pair. -/
def calcDamageRatio (hazType : String) (x : ℚ) (assetType : String) : ℚ :=
  match curveLookup assetType hazType with
  | none => 0
  | some c =>
      let mdr := mdrCurve c
      npClip (npInterp (c.intensity.zip mdr) 0 (mdr.getLastD 0) x) 0 1

/- ────────────────────────────────────────────────────────────────────────
   Distribution engine: exceedance plotting positions (lines 164-179)
   ──────────────────────────────────────────────────────────────────────── -/

/-- The plotting-position formula dispatch of `_exceedance_probs` on the
(already lowercased) method name: hazen `(r−0.5)/n`, gringorten
`(r−0.44)/(n+0.12)`, anything else weibull `r/(n+1)`. -/
def plottingPosition (m : String) (n : ℕ) (r : ℚ) : ℚ :=
  if m = "hazen" then (r - 0.5) / (n : ℚ)
  else if m = "gringorten" then (r - 0.44) / ((n : ℚ) + 0.12)
  else r / ((n : ℚ) + 1)

/-- `ZarrDataReader._exceedance_probs(n, method)`: ranks `1..n`, one of the
three plotting-position formulas selected on the lowercased method name
(weibull as default, also when the method string is falsy), clipped to
`[0, 1]`. -/
def exceedanceProbs (n : ℕ) (method : String) : List ℚ :=
  if n = 0 then []
  else
    let m := strLower (if method = "" then "weibull" else method)
    (List.range n).map (fun (k : ℕ) => npClip (plottingPosition m n ((k : ℚ) + 1)) 0 1)

/- ────────────────────────────────────────────────────────────────────────
   Risk pricing engine (lines 476-583 per hazard; 705-759 combined)
   ──────────────────────────────────────────────────────────────────────── -/

/-- The actuarial fields produced by the pricing blocks. -/
structure PricingModel where
  assetValue : ℚ
  attentionLossFactor : ℚ
  stopLossFactor : ℚ
  annualizationFactor : ℚ
  aal : ℚ
  pml : ℚ
  varQ : ℚ
  tvarQ : ℚ
  riskLoad : ℚ
  expenseRatio : ℚ
  purePremium : ℚ
  technicalPremium : ℚ
  riskQuantile : ℚ
deriving DecidableEq

/-- `float(np.clip(risk_quantile, 0.5, 0.999))`. -/
def clampQuantile (riskQuantile : ℚ) : ℚ := npClip riskQuantile (1/2) (999/1000)

/-- The metric block shared verbatim by the combined pricing (lines
719-741) and the per-hazard pricing (lines 501-524): annualization from
the step count, AAL/PML/VaR/TVaR, risk load by method, premiums.
`stdevScaled` abstracts `np.nanstd(loss) * np.sqrt(ann)` (the only
non-rational quantity; no claim constrains its value). -/
def priceLoss (stdevScaled : List ℚ → ℚ → ℚ)
    (assetValue alf slf : ℚ) (lossPerStep : List ℚ)
    (riskLoadMethod : String) (riskQuantile expenseRatio : ℚ) : PricingModel :=
  let quantile := clampQuantile riskQuantile
  let totalHours : ℚ := max (lossPerStep.length : ℚ) 1
  let ann : ℚ := 8760 / totalHours
  let aal := npMean lossPerStep * ann
  let pml := npMax lossPerStep * ann
  let thr := quantileLinear lossPerStep quantile
  let varQ := thr * ann
  let tail := lossPerStep.filter (fun x => x ≥ thr)
  let tvarQ := (if tail.length ≠ 0 then npMean tail else thr) * ann
  let m := strLower (if riskLoadMethod = "" then "none" else riskLoadMethod)
  let riskLoad :=
    if m = "var" then max (varQ - aal) 0
    else if m = "tvar" then max (tvarQ - aal) 0
    else if m = "stdev" then stdevScaled lossPerStep ann
    else 0
  let purePremium := aal
  let technicalPremium := purePremium * (1 + max expenseRatio 0) + riskLoad
  { assetValue := assetValue
    attentionLossFactor := attentionFactor alf
    stopLossFactor := stopFactor slf alf
    annualizationFactor := ann
    aal := aal
    pml := pml
    varQ := varQ
    tvarQ := tvarQ
    riskLoad := riskLoad
    expenseRatio := max expenseRatio 0
    purePremium := purePremium
    technicalPremium := technicalPremium
    riskQuantile := quantile }

/-- Combined-series pricing block (lines 705-759): the loss-per-step
source is always the legacy discrete model applied to `combined_status`,
scaled by the asset value. -/
def combinedLossPerStep (assetValue alf slf : ℚ) (combinedStatus : List ℕ) : List ℚ :=
  (discreteLossRatio alf slf combinedStatus).map (fun r => assetValue * r)

/-- The `pricing_models` result (lines 705-759). -/
def combinedPricing (stdevScaled : List ℚ → ℚ → ℚ)
    (assetValue alf slf : ℚ) (combinedStatus : List ℕ)
    (riskLoadMethod : String) (riskQuantile expenseRatio : ℚ) : PricingModel :=
  priceLoss stdevScaled assetValue alf slf
    (combinedLossPerStep assetValue alf slf combinedStatus)
    riskLoadMethod riskQuantile expenseRatio

/-- Hazard name → CLIMADA hazard code, as on lines 488 and 554. -/
def hazCode (hazard : String) : String := if hazard = "wind" then HAZ_WIND else HAZ_WAVE

/-- `_use_climada` (lines 482-486): the curve service imported successfully
and a non-legacy, non-empty asset type was selected. -/
def useClimada (climadaAvailable : Bool) (assetType : String) : Bool :=
  climadaAvailable && !(assetType = "generic_offshore") && !(assetType = "")

/-- Per-hazard loss-per-step source (lines 487-499): continuous damage
ratios from the curve store when `_use_climada`, else the legacy discrete
model on the hazard's state series. -/
def hazardLossPerStep (climadaAvailable : Bool) (assetType hazard : String)
    (assetValue alf slf : ℚ) (values : List ℚ) (status : List ℕ) : List ℚ :=
  let ratio :=
    if useClimada climadaAvailable assetType then
      values.map (fun x => calcDamageRatio (hazCode hazard) x assetType)
    else discreteLossRatio alf slf status
  ratio.map (fun r => assetValue * r)

/-- The `hazard_pricing_models[hazard]` entry (lines 476-583). -/
def hazardPricing (stdevScaled : List ℚ → ℚ → ℚ) (climadaAvailable : Bool)
    (assetType hazard : String) (assetValue alf slf : ℚ)
    (values : List ℚ) (status : List ℕ)
    (riskLoadMethod : String) (riskQuantile expenseRatio : ℚ) : PricingModel :=
  priceLoss stdevScaled assetValue alf slf
    (hazardLossPerStep climadaAvailable assetType hazard assetValue alf slf values status)
    riskLoadMethod riskQuantile expenseRatio

/- ────────────────────────────────────────────────────────────────────────
   Combination engine (lines 643-703) and the mode-dependent tail of
   get_multi_risk_point (effective stop hours, stop-cost pricing,
   combined exceedance/metrics, combined pricing)
   ──────────────────────────────────────────────────────────────────────── -/

/-- Per-hazard weight after `weight_map.get(hazard, 1.0)` and
`np.where(weights_used <= 0, 1.0, weights_used)`. -/
def coercedWeight (weights : String → Option ℚ) (hazard : String) : ℚ :=
  let w := (weights hazard).getD 1
  if w ≤ 0 then 1 else w

/-- `weights_used` for the aligned hazard list. -/
def weightsUsed (hazardNames : List String) (weights : String → Option ℚ) : List ℚ :=
  hazardNames.map (coercedWeight weights)

/-- One index of `np.average(stacked, axis=0, weights=weights_used)`:
the weighted mean of the state codes of the hazard column. -/
def weightedScoreAt (ws : List ℚ) (col : List ℕ) : ℚ :=
  (List.zipWith (fun w s => w * (s : ℚ)) ws col).sum / ws.sum

/-- Re-thresholding of a weighted score into a combined state, by the two
`np.where` lines 651-653 (score ≥ 1.5 → 2, 0.5 ≤ score < 1.5 → 1, else 0). -/
def scoreToState (score : ℚ) : ℕ :=
  let s0 : ℕ := 0
  let s1 : ℕ := if score ≥ 1.5 then 2 else s0
  if score ≥ 0.5 ∧ score < 1.5 then 1 else s1

/-- `np.maximum.reduce(status_list)`: elementwise maximum of the per-hazard
state series. -/
def maxReduce : List (List ℕ) → List ℕ
  | [] => []
  | x :: xs => xs.foldl (fun acc l => List.zipWith max acc l) x

/-- The weighted-mode score series: one weighted column average per index
(`len` is the shared series length of the aligned hazards). -/
def weightedScoreSeries (ws : List ℚ) (stacked : List (List ℕ)) (len : ℕ) : List ℚ :=
  (List.range len).map (fun j => weightedScoreAt ws (stacked.map (fun row => row.getD j 0)))

/-- `np.logical_and.reduce([status >= 1 ...])` followed by `np.sum`: the
number of indices at which every requested hazard is at state ≥ 1. -/
def allAttentionCount (stacked : List (List ℕ)) (len : ℕ) : ℕ :=
  ((List.range len).filter (fun j => stacked.all (fun row => 1 ≤ row.getD j 0))).length

/-- Everything after the per-hazard loop that the combine mode can touch:
combined state series and score, hour counts, effective stop hours,
stop-cost pricing, combined exceedance and percentile summary, and the
combined actuarial pricing block. -/
structure CombinedBlock where
  combinedStatus : List ℕ
  score : List ℚ
  operationalHours : ℕ
  attentionHours : ℕ
  stopHours : ℕ
  totalHours : ℕ
  effectiveStopHours : ℚ
  stopCost : Option ℚ
  exceedanceValues : List ℚ
  exceedanceProbsOut : List ℚ
  metricsMean : ℚ
  metricsMax : ℚ
  metricsP50 : ℚ
  metricsP90 : ℚ
  metricsP95 : ℚ
  metricsP99 : ℚ
  pricingModels : Option PricingModel

/-- Lines 643-759 of `get_multi_risk_point`, from the combine-mode branch
to the `pricing_models` block, as one function of the per-hazard state
series (`statusMap`, in aligned order) and the request parameters. -/
def combineAndPrice (stdevScaled : List ℚ → ℚ → ℚ) (combineMode : String)
    (statusMap : List (String × List ℕ)) (weights : String → Option ℚ)
    (multiplier : ℚ) (stopCostPerHour : Option ℚ) (assetValue : Option ℚ)
    (alf slf : ℚ) (exceedanceMethod riskLoadMethod : String)
    (riskQuantile expenseRatio : ℚ) :
    CombinedBlock :=
  let stacked := statusMap.map Prod.snd
  let pair : List ℕ × List ℚ :=
    if combineMode = "weighted" then
      let ws := weightsUsed (statusMap.map Prod.fst) weights
      let score := weightedScoreSeries ws stacked ((stacked.headD []).length)
      (score.map scoreToState, score)
    else
      let cs := maxReduce stacked
      (cs, cs.map (fun s => (s : ℚ)))
  let combinedStatus := pair.1
  let score := pair.2
  let stopHours := hoursInState combinedStatus 2
  let effectiveStopHours : ℚ :=
    if combineMode = "multiplier" then
      (stopHours : ℚ) +
        (allAttentionCount stacked ((stacked.headD []).length) : ℚ) *
          (max 1 multiplier - 1)
    else (stopHours : ℚ)
  let stopCost := stopCostPerHour.map (fun c => c * effectiveStopHours)
  let sortedScore := sortDesc score
  let probs := exceedanceProbs sortedScore.length exceedanceMethod
  let pricingModels :=
    match assetValue with
    | none => none
    | some av =>
        if 0 < av then
          some (combinedPricing stdevScaled av alf slf combinedStatus
            riskLoadMethod riskQuantile expenseRatio)
        else none
  { combinedStatus := combinedStatus
    score := score
    operationalHours := hoursInState combinedStatus 0
    attentionHours := hoursInState combinedStatus 1
    stopHours := stopHours
    totalHours := combinedStatus.length
    effectiveStopHours := effectiveStopHours
    stopCost := stopCost
    exceedanceValues := sortedScore
    exceedanceProbsOut := probs
    metricsMean := if score.length = 0 then 0 else npMean score
    metricsMax := if score.length = 0 then 0 else npMax score
    metricsP50 := if score.length = 0 then 0 else percentile score 50
    metricsP90 := if score.length = 0 then 0 else percentile score 90
    metricsP95 := if score.length = 0 then 0 else percentile score 95
    metricsP99 := if score.length = 0 then 0 else percentile score 99
    pricingModels := pricingModels }

/- ────────────────────────────────────────────────────────────────────────
   Helper lemmas
   ──────────────────────────────────────────────────────────────────────── -/

theorem sortAsc_pairwise (l : List ℚ) : (sortAsc l).Pairwise (· ≤ ·) :=
  List.sorted_insertionSort _ l

theorem sortAsc_perm (l : List ℚ) : List.Perm (sortAsc l) l :=
  List.perm_insertionSort _ l

theorem mem_sortAsc {x : ℚ} {l : List ℚ} : x ∈ sortAsc l ↔ x ∈ l :=
  (sortAsc_perm l).mem_iff

theorem sortAsc_length (l : List ℚ) : (sortAsc l).length = l.length :=
  (sortAsc_perm l).length_eq

theorem le_foldl_max (xs : List ℚ) (b : ℚ) : b ≤ xs.foldl max b := by
  induction xs generalizing b with
  | nil => simp
  | cons a t ih => exact le_trans (le_max_left b a) (ih (max b a))

theorem mem_le_foldl_max (xs : List ℚ) (b : ℚ) : ∀ y ∈ xs, y ≤ xs.foldl max b := by
  induction xs generalizing b with
  | nil => simp
  | cons a t ih =>
    intro y hy
    rcases List.mem_cons.mp hy with rfl | hy
    · exact le_trans (le_max_right b y) (le_foldl_max t (max b y))
    · exact ih (max b a) y hy

theorem foldl_max_mem (xs : List ℚ) (b : ℚ) : xs.foldl max b = b ∨ xs.foldl max b ∈ xs := by
  induction xs generalizing b with
  | nil => left; rfl
  | cons a t ih =>
    rcases ih (max b a) with h | h
    · rcases le_total a b with hab | hba
      · left
        simpa [max_eq_left hab] using h
      · right
        rw [List.foldl_cons, h, max_eq_right hba]
        exact List.mem_cons_self a t
    · right
      exact List.mem_cons_of_mem a h

theorem le_npMax (l : List ℚ) : ∀ y ∈ l, y ≤ npMax l := by
  intro y hy
  cases l with
  | nil => cases hy
  | cons x xs =>
    rcases List.mem_cons.mp hy with rfl | hy
    · exact le_foldl_max xs y
    · exact mem_le_foldl_max xs x y hy

theorem npMax_mem (l : List ℚ) (h : l ≠ []) : npMax l ∈ l := by
  cases l with
  | nil => exact absurd rfl h
  | cons x xs =>
    rcases foldl_max_mem xs x with h' | h'
    · rw [npMax, h']
      exact List.mem_cons_self x xs
    · exact List.mem_cons_of_mem x h'

theorem npMax_nonneg {l : List ℚ} (h : ∀ x ∈ l, 0 ≤ x) : 0 ≤ npMax l := by
  cases l with
  | nil => exact le_refl 0
  | cons x xs => exact h _ (npMax_mem (x :: xs) (by simp))

theorem npMean_nonneg {l : List ℚ} (h : ∀ x ∈ l, 0 ≤ x) : 0 ≤ npMean l :=
  div_nonneg (List.sum_nonneg h) (Nat.cast_nonneg _)

theorem npMean_le_npMax (l : List ℚ) : npMean l ≤ npMax l := by
  cases l with
  | nil => simp [npMean, npMax]
  | cons x xs =>
    have hlen : (0 : ℚ) < ((x :: xs).length : ℚ) := by
      exact_mod_cast Nat.succ_pos xs.length
    have hsum : (x :: xs).sum ≤ ((x :: xs).length : ℚ) * npMax (x :: xs) := by
      have := List.sum_le_card_nsmul (x :: xs) (npMax (x :: xs)) (le_npMax (x :: xs))
      simpa [nsmul_eq_mul] using this
    rw [npMean, div_le_iff hlen]
    linarith [hsum]

theorem getD_eq_of_lt (l : List ℚ) (i : ℕ) (h : i < l.length) :
    l.getD i 0 = l[i] := by
  simp [List.getD_eq_getElem?_getD, List.getElem?_eq_getElem h]


/-- A convex combination of two order statistics of a sorted list is
bracketed by members of the list. -/
theorem interp_bracket (s : List ℚ) (hs : s.Pairwise (· ≤ ·)) (i j : ℕ) (g : ℚ)
    (hin : i < s.length) (hjn : j < s.length) (hij : i ≤ j)
    (hg0 : 0 ≤ g) (hg1 : g ≤ 1) :
    ∃ a b, a ∈ s ∧ b ∈ s ∧ a ≤ b ∧
      a ≤ s.getD i 0 + g * (s.getD j 0 - s.getD i 0) ∧
      s.getD i 0 + g * (s.getD j 0 - s.getD i 0) ≤ b := by
  have hlo : s.getD i 0 = s[i] := getD_eq_of_lt s i hin
  have hhi : s.getD j 0 = s[j] := getD_eq_of_lt s j hjn
  have hlohi : s[i] ≤ s[j] := by
    rcases Nat.eq_or_lt_of_le hij with heq | hlt
    · subst heq
      exact le_refl _
    · exact List.pairwise_iff_getElem.mp hs i j hin hjn hlt
  refine ⟨s[i], s[j], List.getElem_mem _, List.getElem_mem _, hlohi, ?_, ?_⟩
  · rw [hlo, hhi]
    nlinarith
  · rw [hlo, hhi]
    nlinarith

/-- Position and fraction facts for the virtual quantile index. -/
theorem floor_pos_facts (n : ℕ) (hn : n ≠ 0) (q : ℚ) (h0 : 0 ≤ q) (h1 : q ≤ 1) :
    (ratFloor (q * ((n : ℚ) - 1))).toNat < n ∧
    0 ≤ q * ((n : ℚ) - 1) - (((ratFloor (q * ((n : ℚ) - 1))).toNat : ℕ) : ℚ) ∧
    q * ((n : ℚ) - 1) - (((ratFloor (q * ((n : ℚ) - 1))).toNat : ℕ) : ℚ) ≤ 1 := by
  have hn1 : (1 : ℚ) ≤ (n : ℚ) := by exact_mod_cast Nat.pos_of_ne_zero hn
  have hpos0 : 0 ≤ q * ((n : ℚ) - 1) := mul_nonneg h0 (by linarith)
  have hposle : q * ((n : ℚ) - 1) ≤ (n : ℚ) - 1 := by
    calc q * ((n : ℚ) - 1) ≤ 1 * ((n : ℚ) - 1) :=
          mul_le_mul_of_nonneg_right h1 (by linarith)
      _ = (n : ℚ) - 1 := one_mul _
  have hfl : ratFloor (q * ((n : ℚ) - 1)) = ⌊q * ((n : ℚ) - 1)⌋ :=
    ratFloor_eq_floor _
  have hfl0 : 0 ≤ ⌊q * ((n : ℚ) - 1)⌋ := Int.floor_nonneg.mpr hpos0
  have hcast : (((ratFloor (q * ((n : ℚ) - 1))).toNat : ℕ) : ℚ) =
      ((⌊q * ((n : ℚ) - 1)⌋ : ℤ) : ℚ) := by
    rw [hfl]
    exact_mod_cast congrArg (fun z : ℤ => (z : ℚ)) (Int.toNat_of_nonneg hfl0)
  have hfle : ⌊q * ((n : ℚ) - 1)⌋ ≤ (n : ℤ) - 1 := by
    have h' : ⌊q * ((n : ℚ) - 1)⌋ ≤ ⌊(n : ℚ) - 1⌋ := Int.floor_le_floor hposle
    have heq : ⌊(n : ℚ) - 1⌋ = (n : ℤ) - 1 := by
      have hc : ((n : ℚ) - 1) = (((n : ℤ) - 1 : ℤ) : ℚ) := by push_cast; ring
      rw [hc, Int.floor_intCast]
    omega
  refine ⟨?_, ?_, ?_⟩
  · rw [hfl]
    omega
  · rw [hcast]
    linarith [Int.floor_le (q * ((n : ℚ) - 1))]
  · rw [hcast]
    have := Int.lt_floor_add_one (q * ((n : ℚ) - 1))
    push_cast at this ⊢
    linarith

/-- The linear-interpolation quantile of a nonempty list is bracketed by
two members of the list, for any `q ∈ [0, 1]`. -/
theorem quantileLinear_bounds (l : List ℚ) (q : ℚ) (h0 : 0 ≤ q) (h1 : q ≤ 1) :
    (l = [] ∧ quantileLinear l q = 0) ∨
    ∃ a b, a ∈ l ∧ b ∈ l ∧ a ≤ b ∧
      a ≤ quantileLinear l q ∧ quantileLinear l q ≤ b := by
  by_cases hnil : l = []
  · subst hnil
    left
    exact ⟨rfl, rfl⟩
  · right
    have hslen0 : (sortAsc l).length ≠ 0 := by
      rw [sortAsc_length]
      exact fun h => hnil (List.length_eq_zero.mp h)
    obtain ⟨hI, hg0, hg1⟩ := floor_pos_facts (sortAsc l).length hslen0 q h0 h1
    have hIj : (ratFloor (q * (((sortAsc l).length : ℚ) - 1))).toNat ≤
        min ((ratFloor (q * (((sortAsc l).length : ℚ) - 1))).toNat + 1)
          ((sortAsc l).length - 1) := by omega
    have hjn : min ((ratFloor (q * (((sortAsc l).length : ℚ) - 1))).toNat + 1)
        ((sortAsc l).length - 1) < (sortAsc l).length := by omega
    obtain ⟨a, b, ha, hb, hab, h1', h2'⟩ :=
      interp_bracket (sortAsc l) (sortAsc_pairwise l)
        ((ratFloor (q * (((sortAsc l).length : ℚ) - 1))).toNat)
        (min ((ratFloor (q * (((sortAsc l).length : ℚ) - 1))).toNat + 1)
          ((sortAsc l).length - 1))
        (q * (((sortAsc l).length : ℚ) - 1) -
          (((ratFloor (q * (((sortAsc l).length : ℚ) - 1))).toNat : ℕ) : ℚ))
        hI hjn hIj hg0 hg1
    have hval : quantileLinear l q =
        (sortAsc l).getD ((ratFloor (q * (((sortAsc l).length : ℚ) - 1))).toNat) 0 +
          (q * (((sortAsc l).length : ℚ) - 1) -
            (((ratFloor (q * (((sortAsc l).length : ℚ) - 1))).toNat : ℕ) : ℚ)) *
          ((sortAsc l).getD
              (min ((ratFloor (q * (((sortAsc l).length : ℚ) - 1))).toNat + 1)
                ((sortAsc l).length - 1)) 0 -
            (sortAsc l).getD ((ratFloor (q * (((sortAsc l).length : ℚ) - 1))).toNat) 0) := by
      rw [quantileLinear]
      simp only [if_neg hslen0]
    rw [hval]
    exact ⟨a, b, mem_sortAsc.mp ha, mem_sortAsc.mp hb, hab, h1', h2'⟩

theorem quantileLinear_nonneg {l : List ℚ} {q : ℚ}
    (hnn : ∀ x ∈ l, 0 ≤ x) (h0 : 0 ≤ q) (h1 : q ≤ 1) :
    0 ≤ quantileLinear l q := by
  rcases quantileLinear_bounds l q h0 h1 with ⟨_, hq⟩ | ⟨a, _, ha, _, _, haq, _⟩
  · rw [hq]
  · exact le_trans (hnn a ha) haq

theorem quantileLinear_le_npMax (l : List ℚ) (q : ℚ) (h0 : 0 ≤ q) (h1 : q ≤ 1) :
    quantileLinear l q ≤ npMax l := by
  rcases quantileLinear_bounds l q h0 h1 with ⟨hl, hq⟩ | ⟨_, b, _, hb, _, _, hqb⟩
  · rw [hq, hl]
    exact le_refl _
  · exact le_trans hqb (le_npMax l b hb)

/- ────────────────────────────────────────────────────────────────────────
   Claim theorems
   ──────────────────────────────────────────────────────────────────────── -/

theorem classifyStep_cases (operational attention x : ℚ) :
    classifyStep operational attention x =
      (if attention ≤ x then 2
       else if operational ≤ x ∧ x < attention then 1
       else 0) := by
  by_cases h2 : attention ≤ x
  · have : ¬x < attention := not_lt.mpr h2
    simp [classifyStep, h2, this]
  · by_cases h1 : operational ≤ x
    · simp [classifyStep, h2, h1, not_le.mp h2, ge_iff_le]
    · simp [classifyStep, h2, h1, ge_iff_le]

/-- C4: for every intensity array and threshold pair with
`attention_max ≥ operational_max`, the classifier maps each element to
state 2 when `x ≥ attention_max`, state 1 when
`operational_max ≤ x < attention_max`, state 0 otherwise; and when
`operational_max = attention_max`, no element is ever classified state 1. -/
theorem C4_classifier (operational attention : ℚ)
    (hthr : operational ≤ attention) (values : List ℚ) :
    classifySeries operational attention values =
      values.map (fun x =>
        if attention ≤ x then 2
        else if operational ≤ x ∧ x < attention then 1
        else 0) ∧
    (operational = attention →
      ∀ s ∈ classifySeries operational attention values, s ≠ 1) := by
  constructor
  · unfold classifySeries
    exact List.map_congr_left (fun x _ => classifyStep_cases operational attention x)
  · intro heq s hs
    obtain ⟨x, _, hx⟩ := List.mem_map.mp hs
    subst heq
    rw [classifyStep_cases] at hx
    by_cases h2 : operational ≤ x
    · have : ¬x < operational := not_lt.mpr h2
      simp [h2, this] at hx
      omega
    · simp [h2] at hx
      omega

/-- Witness for C4 on the spec's wind scenario `[10, 14, 16, 22]` with
thresholds `(15, 20)`. -/
theorem C4_classifier_witness :
    (15 : ℚ) ≤ 20 ∧ classifySeries 15 20 [10, 14, 16, 22] = [0, 0, 1, 2] := by
  refine ⟨by norm_num, ?_⟩
  have h := (C4_classifier 15 20 (by norm_num) [10, 14, 16, 22]).1
  rw [h]
  decide

/-- C3 counterexample: with `attention_loss_factor = 0.35` and
`stop_loss_factor = 2`, the state-2 per-step loss factor is `2 > 1`, so
the stop factor is not clamped to `[0, 1]` as the claim asserts. -/
theorem C3_counterexample :
    discreteLossFactor (35/100) 2 2 = 2 ∧
    ¬discreteLossFactor (35/100) 2 2 ≤ 1 := by
  constructor
  · norm_num [discreteLossFactor, stopFactor, attentionFactor, npClip]
  · norm_num [discreteLossFactor, stopFactor, attentionFactor, npClip]

/-- C3 (amended): the per-step loss factor is `max(stop_loss_factor,
attention_factor)` when state = 2, the attention factor when state = 1
and 0 otherwise; the attention factor is clamped to `[0, 1]` but the stop
factor is only floored at the attention factor, so the loss factor is
bounded by `max(stop_loss_factor, 1)`, not by 1. -/
theorem C3_discrete_loss_amended (alf slf : ℚ) (s : ℕ) (hs : s ≤ 2) :
    discreteLossFactor alf slf s =
      (if s = 2 then max slf (attentionFactor alf)
       else if s = 1 then attentionFactor alf else 0) ∧
    0 ≤ attentionFactor alf ∧ attentionFactor alf ≤ 1 ∧
    0 ≤ discreteLossFactor alf slf s ∧
    discreteLossFactor alf slf s ≤ max slf 1 := by
  have hat0 : 0 ≤ attentionFactor alf := by
    rw [attentionFactor, npClip]
    exact le_min (by norm_num) (le_max_right _ _)
  have hat1 : attentionFactor alf ≤ 1 := by
    rw [attentionFactor, npClip]
    exact min_le_left _ _
  refine ⟨by rw [discreteLossFactor, stopFactor], hat0, hat1, ?_, ?_⟩
  · rw [discreteLossFactor]
    by_cases hs2 : s = 2
    · rw [if_pos hs2, stopFactor]
      exact le_max_of_le_right hat0
    · by_cases hs1 : s = 1
      · rw [if_neg hs2, if_pos hs1]
        exact hat0
      · rw [if_neg hs2, if_neg hs1]
  · rw [discreteLossFactor]
    by_cases hs2 : s = 2
    · rw [if_pos hs2, stopFactor]
      exact max_le_max (le_refl slf) hat1
    · by_cases hs1 : s = 1
      · rw [if_neg hs2, if_pos hs1]
        exact le_max_of_le_right hat1
      · rw [if_neg hs2, if_neg hs1]
        exact le_max_of_le_right (by norm_num)

/-- Witness for the amended C3 at `alf = 0.35`, `slf = 2`, state 2. -/
theorem C3_discrete_loss_amended_witness :
    discreteLossFactor (35/100) 2 2 =
      max 2 (attentionFactor (35/100)) ∧
    discreteLossFactor (35/100) 2 2 ≤ max 2 1 :=
  ⟨(C3_discrete_loss_amended (35/100) 2 2 (by norm_num)).1.trans (by norm_num),
   (C3_discrete_loss_amended (35/100) 2 2 (by norm_num)).2.2.2.2⟩

theorem count012 (l : List ℕ) (h : ∀ s ∈ l, s ≤ 2) :
    hoursInState l 0 + hoursInState l 1 + hoursInState l 2 = l.length := by
  induction l with
  | nil => simp [hoursInState]
  | cons a t ih =>
    have ha : a ≤ 2 := h a (List.mem_cons_self a t)
    have ht : ∀ s ∈ t, s ≤ 2 := fun s hs => h s (List.mem_cons_of_mem a hs)
    have iht := ih ht
    rcases Nat.lt_or_ge a 1 with h0 | h1
    · have ha0 : a = 0 := by omega
      subst ha0
      simp [hoursInState, List.filter_cons] at iht ⊢
      omega
    · rcases Nat.lt_or_ge a 2 with h1' | h2
      · have ha1 : a = 1 := by omega
        subst ha1
        simp [hoursInState, List.filter_cons] at iht ⊢
        omega
      · have ha2 : a = 2 := by omega
        subst ha2
        simp [hoursInState, List.filter_cons] at iht ⊢
        omega

theorem classifyStepF_le_two (operational attention : ℚ) (x : FVal) :
    classifyStepF operational attention x ≤ 2 := by
  rw [classifyStepF]
  rcases hc : (fge x operational && flt x attention) with _ | _ <;>
    rcases ha : fge x attention with _ | _ <;> simp [hc, ha]

/-- C9: the reported hour counts partition the series
(`operational + attention + stop = length`), and every NaN sample is
classified state 0 (hence counted in `operational_hours`). -/
theorem C9_partition (operational attention : ℚ) (values : List FVal) :
    hoursInState (classifySeriesF operational attention values) 0 +
      hoursInState (classifySeriesF operational attention values) 1 +
      hoursInState (classifySeriesF operational attention values) 2 =
      values.length ∧
    ∀ x ∈ values, x = none → classifyStepF operational attention x = 0 := by
  constructor
  · have h : ∀ s ∈ classifySeriesF operational attention values, s ≤ 2 := by
      intro s hs
      obtain ⟨x, _, hx⟩ := List.mem_map.mp hs
      rw [← hx]
      exact classifyStepF_le_two operational attention x
    rw [count012 _ h, classifySeriesF, List.length_map]
  · intro x _ hx
    subst hx
    rfl

/-- Witness for C9 on a series containing a NaN sample. -/
theorem C9_partition_witness :
    hoursInState (classifySeriesF 15 20 [none, some 16, some 22]) 0 +
      hoursInState (classifySeriesF 15 20 [none, some 16, some 22]) 1 +
      hoursInState (classifySeriesF 15 20 [none, some 16, some 22]) 2 = 3 ∧
    classifyStepF 15 20 none = 0 := by
  constructor
  · have h := (C9_partition 15 20 [none, some 16, some 22]).1
    simpa using h
  · exact (C9_partition 15 20 [none, some 16, some 22]).2 none (by simp) rfl

/-- C6: the annualization factor is `8760 / max(total_steps, 1)` and AAL
is the mean loss per step times that factor; on the spec scenario
(discrete model, asset 1,000,000, factors 0.35/1.0, states `[0,0,1,2]`)
the loss series is `[0, 0, 350000, 1000000]`, the factor is 2190 and AAL
is 739,125,000. -/
theorem C6_annualization_aal (stdevScaled : List ℚ → ℚ → ℚ)
    (av alf slf : ℚ) (loss : List ℚ) (rlm : String) (rq er : ℚ) :
    (priceLoss stdevScaled av alf slf loss rlm rq er).annualizationFactor =
      8760 / max (loss.length : ℚ) 1 ∧
    (priceLoss stdevScaled av alf slf loss rlm rq er).aal =
      (loss.sum / (loss.length : ℚ)) * (8760 / max (loss.length : ℚ) 1) ∧
    combinedLossPerStep 1000000 (35/100) 1 [0, 0, 1, 2] =
      [0, 0, 350000, 1000000] ∧
    (combinedPricing (fun _ _ => 0) 1000000 (35/100) 1 [0, 0, 1, 2]
        "none" (95/100) (15/100)).annualizationFactor = 2190 ∧
    (combinedPricing (fun _ _ => 0) 1000000 (35/100) 1 [0, 0, 1, 2]
        "none" (95/100) (15/100)).aal = 739125000 := by
  refine ⟨rfl, rfl, ?_, ?_, ?_⟩
  · norm_num [combinedLossPerStep, discreteLossRatio, discreteLossFactor,
      attentionFactor, stopFactor, npClip]
  · show (8760 : ℚ) / max ((4 : ℕ) : ℚ) 1 = 2190
    norm_num
  · show npMean (combinedLossPerStep 1000000 (35/100) 1 [0, 0, 1, 2]) *
        (8760 / max ((combinedLossPerStep 1000000 (35/100) 1 [0, 0, 1, 2]).length : ℚ) 1) =
        739125000
    norm_num [combinedLossPerStep, discreteLossRatio, discreteLossFactor,
      attentionFactor, stopFactor, npClip, npMean]

theorem scoreToState_cases (score : ℚ) :
    scoreToState score =
      (if 3/2 ≤ score then 2 else if 1/2 ≤ score then 1 else 0) := by
  have e32 : (1.5 : ℚ) = 3/2 := by norm_num
  have e12 : (0.5 : ℚ) = 1/2 := by norm_num
  simp only [scoreToState, ge_iff_le, e32, e12]
  by_cases h2 : 3/2 ≤ score
  · have hnlt : ¬score < 3/2 := not_lt.mpr h2
    rw [if_neg (fun hc => hnlt hc.2), if_pos h2, if_pos h2]
  · by_cases h1 : 1/2 ≤ score
    · rw [if_pos ⟨h1, not_le.mp h2⟩, if_neg h2, if_pos h1]
    · rw [if_neg (fun hc => h1 hc.1), if_neg h2, if_neg h2, if_neg h1]

theorem getD_range_map (f : ℕ → ℚ) (len j : ℕ) (hj : j < len) :
    ((List.range len).map f).getD j 0 = f j := by
  have hlen : j < ((List.range len).map f).length := by
    simpa using hj
  rw [getD_eq_of_lt _ j hlen]
  simp

/-- C5: in weighted mode the per-hazard weight defaults to 1 and any
non-positive weight is coerced to 1; the combined score is the weighted
average of the state codes and is re-thresholded at 0.5 and 1.5; states
`[0, 2]` under equal weights give score 1 and combined state 1, not 2. -/
theorem C5_weighted_combine :
    (∀ score : ℚ, scoreToState score =
        (if 3/2 ≤ score then 2 else if 1/2 ≤ score then 1 else 0)) ∧
    (∀ (weights : String → Option ℚ) (h : String),
        weights h = none → coercedWeight weights h = 1) ∧
    (∀ (weights : String → Option ℚ) (h : String),
        (weights h).getD 1 ≤ 0 → coercedWeight weights h = 1) ∧
    (∀ (weights : String → Option ℚ) (h : String),
        0 < (weights h).getD 1 →
          coercedWeight weights h = (weights h).getD 1) ∧
    (∀ (ws : List ℚ) (col : List ℕ), weightedScoreAt ws col =
        (List.zipWith (fun w s => w * (s : ℚ)) ws col).sum / ws.sum) ∧
    (∀ (ws : List ℚ) (stacked : List (List ℕ)) (len j : ℕ), j < len →
        (weightedScoreSeries ws stacked len).getD j 0 =
          weightedScoreAt ws (stacked.map (fun row => row.getD j 0))) ∧
    (weightedScoreAt (weightsUsed ["wind", "wave"] (fun _ => none)) [0, 2] = 1 ∧
      scoreToState 1 = 1) := by
  refine ⟨scoreToState_cases, ?_, ?_, ?_, fun _ _ => rfl, ?_, ?_, ?_⟩
  · intro weights h hnone
    simp [coercedWeight, hnone]
  · intro weights h hle
    simp [coercedWeight, hle]
  · intro weights h hpos
    simp [coercedWeight, not_le.mpr hpos]
  · intro ws stacked len j hj
    rw [weightedScoreSeries, getD_range_map _ len j hj]
  · norm_num [weightedScoreAt, weightsUsed, coercedWeight]
  · norm_num [scoreToState]

/-- Witness for C5: default weights on two hazards and the divergence
scenario `[0, 2] → score 1 → state 1`. -/
theorem C5_weighted_combine_witness :
    coercedWeight (fun _ => none) "wind" = 1 ∧
    weightedScoreAt (weightsUsed ["wind", "wave"] (fun _ => none)) [0, 2] = 1 ∧
    scoreToState 1 = 1 :=
  ⟨C5_weighted_combine.2.1 (fun _ => none) "wind" rfl,
   C5_weighted_combine.2.2.2.2.2.2.1,
   C5_weighted_combine.2.2.2.2.2.2.2⟩

theorem clampQuantile_nonneg (rq : ℚ) : 0 ≤ clampQuantile rq := by
  rw [clampQuantile, npClip]
  exact le_min (by norm_num) (le_trans (by norm_num) (le_max_right rq (1/2)))

theorem clampQuantile_le_one (rq : ℚ) : clampQuantile rq ≤ 1 := by
  rw [clampQuantile, npClip]
  exact le_trans (min_le_left _ _) (by norm_num)

theorem annualization_pos (n : ℕ) : 0 < 8760 / max ((n : ℕ) : ℚ) 1 :=
  div_pos (by norm_num) (lt_of_lt_of_le zero_lt_one (le_max_right _ 1))

/-- C2 (amended): for every non-negative loss-per-step series, AAL, PML,
VaR and TVaR are all ≥ 0, and PML ≥ VaR and PML ≥ AAL.  (The claim's
`VaR ≥ AAL` does not hold in general: see the counterexample.) -/
theorem C2_pricing_amended (stdevScaled : List ℚ → ℚ → ℚ)
    (av alf slf : ℚ) (loss : List ℚ) (rlm : String) (rq er : ℚ)
    (hnn : ∀ x ∈ loss, 0 ≤ x) :
    0 ≤ (priceLoss stdevScaled av alf slf loss rlm rq er).aal ∧
    0 ≤ (priceLoss stdevScaled av alf slf loss rlm rq er).pml ∧
    0 ≤ (priceLoss stdevScaled av alf slf loss rlm rq er).varQ ∧
    0 ≤ (priceLoss stdevScaled av alf slf loss rlm rq er).tvarQ ∧
    (priceLoss stdevScaled av alf slf loss rlm rq er).varQ ≤
      (priceLoss stdevScaled av alf slf loss rlm rq er).pml ∧
    (priceLoss stdevScaled av alf slf loss rlm rq er).aal ≤
      (priceLoss stdevScaled av alf slf loss rlm rq er).pml := by
  have hq0 : 0 ≤ clampQuantile rq := clampQuantile_nonneg rq
  have hq1 : clampQuantile rq ≤ 1 := clampQuantile_le_one rq
  have hann : 0 < 8760 / max ((loss.length : ℕ) : ℚ) 1 := annualization_pos loss.length
  refine ⟨?_, ?_, ?_, ?_, ?_, ?_⟩
  · show 0 ≤ npMean loss * (8760 / max ((loss.length : ℕ) : ℚ) 1)
    exact mul_nonneg (npMean_nonneg hnn) (le_of_lt hann)
  · show 0 ≤ npMax loss * (8760 / max ((loss.length : ℕ) : ℚ) 1)
    exact mul_nonneg (npMax_nonneg hnn) (le_of_lt hann)
  · show 0 ≤ quantileLinear loss (clampQuantile rq) *
        (8760 / max ((loss.length : ℕ) : ℚ) 1)
    exact mul_nonneg (quantileLinear_nonneg hnn hq0 hq1) (le_of_lt hann)
  · show 0 ≤
      (if (loss.filter (fun x => x ≥ quantileLinear loss (clampQuantile rq))).length ≠ 0
        then npMean (loss.filter (fun x => x ≥ quantileLinear loss (clampQuantile rq)))
        else quantileLinear loss (clampQuantile rq)) *
      (8760 / max ((loss.length : ℕ) : ℚ) 1)
    refine mul_nonneg ?_ (le_of_lt hann)
    by_cases ht : (loss.filter (fun x => x ≥ quantileLinear loss (clampQuantile rq))).length ≠ 0
    · rw [if_pos ht]
      exact npMean_nonneg (fun x hx => hnn x (List.mem_of_mem_filter hx))
    · rw [if_neg ht]
      exact quantileLinear_nonneg hnn hq0 hq1
  · show quantileLinear loss (clampQuantile rq) *
        (8760 / max ((loss.length : ℕ) : ℚ) 1) ≤
      npMax loss * (8760 / max ((loss.length : ℕ) : ℚ) 1)
    exact mul_le_mul_of_nonneg_right
      (quantileLinear_le_npMax loss (clampQuantile rq) hq0 hq1) (le_of_lt hann)
  · show npMean loss * (8760 / max ((loss.length : ℕ) : ℚ) 1) ≤
      npMax loss * (8760 / max ((loss.length : ℕ) : ℚ) 1)
    exact mul_le_mul_of_nonneg_right (npMean_le_npMax loss) (le_of_lt hann)

/-- Witness for the amended C2 on the loss series `[0, 0, 0, 10]`. -/
theorem C2_pricing_amended_witness :
    0 ≤ (priceLoss (fun _ _ => 0) 1 (35/100) 1 [0, 0, 0, 10] "none" (1/2) (15/100)).aal ∧
    (priceLoss (fun _ _ => 0) 1 (35/100) 1 [0, 0, 0, 10] "none" (1/2) (15/100)).varQ ≤
      (priceLoss (fun _ _ => 0) 1 (35/100) 1 [0, 0, 0, 10] "none" (1/2) (15/100)).pml :=
  ⟨(C2_pricing_amended (fun _ _ => 0) 1 (35/100) 1 [0, 0, 0, 10] "none" (1/2) (15/100)
      (by norm_num)).1,
   (C2_pricing_amended (fun _ _ => 0) 1 (35/100) 1 [0, 0, 0, 10] "none" (1/2) (15/100)
      (by norm_num)).2.2.2.2.1⟩

/-- C2 counterexample: the non-negative, non-constant series
`[0, 0, 0, 10]` priced at risk quantile 0.5 has VaR = 0 strictly below
AAL = 5475, refuting `VaR ≥ AAL`. -/
theorem C2_counterexample :
    (∀ x ∈ ([0, 0, 0, 10] : List ℚ), 0 ≤ x) ∧
    ([0, 0, 0, 10] : List ℚ) ≠ [] ∧
    (0 : ℚ) ∈ ([0, 0, 0, 10] : List ℚ) ∧
    (10 : ℚ) ∈ ([0, 0, 0, 10] : List ℚ) ∧
    (0 : ℚ) ≠ 10 ∧
    (1/2 : ℚ) ≥ 1/2 ∧
    (priceLoss (fun _ _ => 0) 1 (35/100) 1 [0, 0, 0, 10] "none" (1/2) (15/100)).varQ = 0 ∧
    (priceLoss (fun _ _ => 0) 1 (35/100) 1 [0, 0, 0, 10] "none" (1/2) (15/100)).aal = 5475 ∧
    ¬((priceLoss (fun _ _ => 0) 1 (35/100) 1 [0, 0, 0, 10] "none" (1/2) (15/100)).aal ≤
        (priceLoss (fun _ _ => 0) 1 (35/100) 1 [0, 0, 0, 10] "none" (1/2) (15/100)).varQ) := by
  have hvar : (priceLoss (fun _ _ => 0) 1 (35/100) 1 [0, 0, 0, 10]
      "none" (1/2) (15/100)).varQ = 0 := by
    show quantileLinear [0, 0, 0, 10] (clampQuantile (1/2)) *
        (8760 / max ((([0, 0, 0, 10] : List ℚ).length : ℕ) : ℚ) 1) = 0
    have hq : clampQuantile (1/2) = 1/2 := by
      norm_num [clampQuantile, npClip]
    rw [hq]
    have hquant : quantileLinear [0, 0, 0, 10] (1/2) = 0 := by
      norm_num [quantileLinear, sortAsc, List.insertionSort, List.orderedInsert,
        ratFloor, List.getD]
    rw [hquant]
    ring
  have haal : (priceLoss (fun _ _ => 0) 1 (35/100) 1 [0, 0, 0, 10]
      "none" (1/2) (15/100)).aal = 5475 := by
    show npMean [0, 0, 0, 10] *
        (8760 / max ((([0, 0, 0, 10] : List ℚ).length : ℕ) : ℚ) 1) = 5475
    norm_num [npMean]
  refine ⟨by norm_num, by simp, by norm_num, by norm_num, by norm_num,
    le_refl _, hvar, haal, ?_⟩
  rw [hvar, haal]
  norm_num

theorem npClip01_nonneg (x : ℚ) : 0 ≤ npClip x 0 1 :=
  le_min (by norm_num) (le_max_right x 0)

theorem npClip01_le_one (x : ℚ) : npClip x 0 1 ≤ 1 :=
  min_le_left 1 (max x 0)

theorem npClip_mono {x y : ℚ} (lo hi : ℚ) (h : x ≤ y) :
    npClip x lo hi ≤ npClip y lo hi :=
  min_le_min (le_refl hi) (max_le_max h (le_refl lo))

theorem plottingPosition_mono (m : String) (n : ℕ) (hn : n ≠ 0)
    {r1 r2 : ℚ} (h : r1 ≤ r2) :
    plottingPosition m n r1 ≤ plottingPosition m n r2 := by
  have hnq : (0 : ℚ) < (n : ℚ) := by exact_mod_cast Nat.pos_of_ne_zero hn
  rw [plottingPosition, plottingPosition]
  by_cases h1 : m = "hazen"
  · rw [if_pos h1, if_pos h1]
    gcongr
  · by_cases h2 : m = "gringorten"
    · rw [if_neg h1, if_pos h2, if_neg h1, if_pos h2]
      have : (0 : ℚ) < (n : ℚ) + 0.12 := by linarith
      gcongr
    · rw [if_neg h1, if_neg h2, if_neg h1, if_neg h2]
      have : (0 : ℚ) < (n : ℚ) + 1 := by linarith
      gcongr

theorem pairwise_map_range_mono (f : ℕ → ℚ) (n : ℕ)
    (hf : ∀ a b : ℕ, a ≤ b → f a ≤ f b) :
    ((List.range n).map f).Pairwise (· ≤ ·) :=
  List.Pairwise.map f (fun a b hab => hf a b (le_of_lt hab))
    (List.pairwise_lt_range n)

/-- C8: for every `n > 0` and every method string, the exceedance
probability sequence is non-decreasing with every entry in `[0, 1]`; the
three plotting-position formulas are weibull `r/(n+1)` (the default for
any unrecognized method), hazen `(r−0.5)/n`, gringorten
`(r−0.44)/(n+0.12)`; and the matched value sequence (descending sort) is
non-increasing and of matching length. -/
theorem C8_exceedance (n : ℕ) (hn : 0 < n) (method : String) :
    (exceedanceProbs n method).length = n ∧
    (exceedanceProbs n method).Pairwise (· ≤ ·) ∧
    (∀ p ∈ exceedanceProbs n method, 0 ≤ p ∧ p ≤ 1) ∧
    exceedanceProbs n "weibull" =
      (List.range n).map (fun (k : ℕ) => npClip (((k : ℚ) + 1) / ((n : ℚ) + 1)) 0 1) ∧
    exceedanceProbs n "hazen" =
      (List.range n).map (fun (k : ℕ) => npClip ((((k : ℚ) + 1) - 0.5) / (n : ℚ)) 0 1) ∧
    exceedanceProbs n "gringorten" =
      (List.range n).map
        (fun (k : ℕ) => npClip ((((k : ℚ) + 1) - 0.44) / ((n : ℚ) + 0.12)) 0 1) ∧
    (∀ m : String, m ≠ "" → strLower m ≠ "hazen" → strLower m ≠ "gringorten" →
      exceedanceProbs n m = exceedanceProbs n "weibull") ∧
    (∀ l : List ℚ, (sortDesc l).Pairwise (· ≥ ·) ∧ (sortDesc l).length = l.length) := by
  have hn0 : n ≠ 0 := Nat.pos_iff_ne_zero.mp hn
  refine ⟨?_, ?_, ?_, ?_, ?_, ?_, ?_, ?_⟩
  · rw [exceedanceProbs, if_neg hn0]
    simp
  · rw [exceedanceProbs, if_neg hn0]
    refine pairwise_map_range_mono _ n (fun a b hab => ?_)
    refine npClip_mono 0 1 (plottingPosition_mono _ n hn0 ?_)
    have : (a : ℚ) ≤ (b : ℚ) := by exact_mod_cast hab
    linarith
  · rw [exceedanceProbs, if_neg hn0]
    intro p hp
    obtain ⟨k, _, rfl⟩ := List.mem_map.mp hp
    exact ⟨npClip01_nonneg _, npClip01_le_one _⟩
  · rw [exceedanceProbs, if_neg hn0]
    have hm : strLower (if ("weibull" : String) = "" then "weibull" else "weibull") =
        "weibull" := by decide
    rw [hm]
    refine List.map_congr_left (fun k _ => ?_)
    rw [plottingPosition, if_neg (by decide), if_neg (by decide)]
  · rw [exceedanceProbs, if_neg hn0]
    have hm : strLower (if ("hazen" : String) = "" then "weibull" else "hazen") =
        "hazen" := by decide
    rw [hm]
    refine List.map_congr_left (fun k _ => ?_)
    rw [plottingPosition, if_pos rfl]
  · rw [exceedanceProbs, if_neg hn0]
    have hm : strLower (if ("gringorten" : String) = "" then "weibull" else "gringorten") =
        "gringorten" := by decide
    rw [hm]
    refine List.map_congr_left (fun k _ => ?_)
    rw [plottingPosition, if_neg (by decide), if_pos rfl]
  · intro m hne hh hg
    rw [exceedanceProbs, if_neg hn0, exceedanceProbs, if_neg hn0]
    have hmm : (if m = "" then "weibull" else m) = m := if_neg hne
    have hw : strLower (if ("weibull" : String) = "" then "weibull" else "weibull") =
        "weibull" := by decide
    rw [hmm, hw]
    refine List.map_congr_left (fun k _ => ?_)
    rw [plottingPosition, if_neg hh, if_neg hg,
      plottingPosition, if_neg (by decide), if_neg (by decide)]
  · intro l
    constructor
    · rw [sortDesc, List.pairwise_reverse]
      exact List.Pairwise.imp (fun h => h) (sortAsc_pairwise l)
    · rw [sortDesc, List.length_reverse, sortAsc_length]

/-- Witness for C8 at `n = 4`, method `"weibull"`. -/
theorem C8_exceedance_witness :
    (0 : ℕ) < 4 ∧ (exceedanceProbs 4 "weibull").length = 4 ∧
    (∀ p ∈ exceedanceProbs 4 "weibull", 0 ≤ p ∧ p ≤ 1) :=
  ⟨by norm_num, (C8_exceedance 4 (by norm_num) "weibull").1,
   (C8_exceedance 4 (by norm_num) "weibull").2.2.1⟩

theorem chain_fst_le_lastFst :
    ∀ (rest : List (ℚ × ℚ)) (p : ℚ × ℚ),
      List.Chain' (fun a b : ℚ × ℚ => a.1 < b.1) (p :: rest) →
      p.1 ≤ (((p :: rest).getLast?).getD (0, 0)).1
  | [], p, _ => by simp
  | q :: rest, p, h => by
    have h1 := (List.chain'_cons.mp h).1
    have h2 := (List.chain'_cons.mp h).2
    have ih := chain_fst_le_lastFst rest q h2
    rw [List.getLast?_cons_cons]
    exact le_trans (le_of_lt h1) ih

theorem npInterpGo_right :
    ∀ (rest : List (ℚ × ℚ)) (t0 y0 rgt x : ℚ),
      List.Chain' (fun a b : ℚ × ℚ => a.1 < b.1) ((t0, y0) :: rest) →
      ((((t0, y0) :: rest).getLast?).getD (0, 0)).1 < x →
      npInterpGo t0 y0 rest rgt x = rgt
  | [], t0, y0, rgt, x, _, hx => by
    simp only [List.getLast?_singleton, Option.getD_some] at hx
    rw [npInterpGo, if_pos hx]
  | (t1, y1) :: rest, t0, y0, rgt, x, hch, hx => by
    have h2 := (List.chain'_cons.mp hch).2
    rw [List.getLast?_cons_cons] at hx
    have ht1 : t1 < x := lt_of_le_of_lt (chain_fst_le_lastFst rest (t1, y1) h2) hx
    rw [npInterpGo, if_neg (not_le.mpr ht1)]
    exact npInterpGo_right rest t1 y1 rgt x h2 hx

theorem npInterp_right (t0 y0 : ℚ) (rest : List (ℚ × ℚ)) (lft rgt x : ℚ)
    (hch : List.Chain' (fun a b : ℚ × ℚ => a.1 < b.1) ((t0, y0) :: rest))
    (hx : ((((t0, y0) :: rest).getLast?).getD (0, 0)).1 < x) :
    npInterp ((t0, y0) :: rest) lft rgt x = rgt := by
  have ht0 : t0 ≤ ((((t0, y0) :: rest).getLast?).getD (0, 0)).1 :=
    chain_fst_le_lastFst rest (t0, y0) hch
  rw [npInterp, if_neg (not_lt.mpr (le_trans ht0 (le_of_lt hx)))]
  exact npInterpGo_right rest t0 y0 rgt x hch hx

theorem npInterp_left (t0 y0 : ℚ) (rest : List (ℚ × ℚ)) (lft rgt x : ℚ)
    (hx : x < t0) :
    npInterp ((t0, y0) :: rest) lft rgt x = lft := by
  rw [npInterp, if_pos hx]

theorem chain_lt_head_of_append :
    ∀ (lm : List (ℚ × ℚ)) (p q : ℚ × ℚ) (l2 : List (ℚ × ℚ)),
      List.Chain' (fun a b : ℚ × ℚ => a.1 < b.1) (p :: (lm ++ q :: l2)) →
      p.1 < q.1
  | [], p, q, l2, h => (List.chain'_cons.mp h).1
  | c :: lm, p, q, l2, h => by
    have h1 := (List.chain'_cons.mp h).1
    have h2 := (List.chain'_cons.mp h).2
    exact lt_trans h1 (chain_lt_head_of_append lm c q l2 h2)

/-- `np.interp` inside the node range: on the segment between two adjacent
nodes `a, b` the result is the linear interpolation between them. -/
theorem npInterpGo_segment (l1 : List (ℚ × ℚ)) :
    ∀ (t0 y0 : ℚ) (rest : List (ℚ × ℚ)) (ta ya tb yb : ℚ) (l2 : List (ℚ × ℚ))
      (rgt x : ℚ),
      List.Chain' (fun p q : ℚ × ℚ => p.1 < q.1) ((t0, y0) :: rest) →
      (t0, y0) :: rest = l1 ++ (ta, ya) :: (tb, yb) :: l2 →
      ta ≤ x → x ≤ tb →
      npInterpGo t0 y0 rest rgt x =
        ya + (x - ta) * (yb - ya) / (tb - ta) := by
  induction l1 with
  | nil =>
    intro t0 y0 rest ta ya tb yb l2 rgt x hch heq hax hxb
    simp only [List.nil_append, List.cons.injEq, Prod.mk.injEq] at heq
    obtain ⟨⟨rfl, rfl⟩, rfl⟩ := heq
    rw [npInterpGo, if_pos hxb]
  | cons p l1' ih =>
    intro t0 y0 rest ta ya tb yb l2 rgt x hch heq hax hxb
    simp only [List.cons_append, List.cons.injEq] at heq
    obtain ⟨hpair, hrest⟩ := heq
    subst hrest
    have htail : List.Chain' (fun p q : ℚ × ℚ => p.1 < q.1)
        (l1' ++ (ta, ya) :: (tb, yb) :: l2) := hch.tail
    cases l1' with
    | nil =>
      simp only [List.nil_append] at htail ⊢
      have h1 : t0 < ta := by
        have := (List.chain'_cons.mp hch).1
        simpa using this
      rw [npInterpGo]
      by_cases hle : x ≤ ta
      · have hxa : x = ta := le_antisymm hle hax
        subst hxa
        rw [if_pos (le_refl x)]
        have hne : x - t0 ≠ 0 := by
          intro hc
          have : x = t0 := by linarith [sub_eq_zero.mp hc]
          linarith
        rw [sub_self, zero_mul, zero_div, add_zero, mul_comm,
          mul_div_assoc, div_self hne, mul_one]
        ring
      · rw [if_neg hle]
        exact ih ta ya ((tb, yb) :: l2) ta ya tb yb l2 rgt x htail rfl hax hxb
    | cons c l1'' =>
      obtain ⟨tc, yc⟩ := c
      simp only [List.cons_append] at htail ⊢
      have htc : tc < ta :=
        chain_lt_head_of_append l1'' (tc, yc) (ta, ya) ((tb, yb) :: l2) htail
      rw [npInterpGo]
      have hnle : ¬x ≤ tc := not_le.mpr (lt_of_lt_of_le htc hax)
      rw [if_neg hnle]
      exact ih tc yc (l1'' ++ (ta, ya) :: (tb, yb) :: l2) ta ya tb yb l2 rgt x
        htail rfl hax hxb

theorem npInterp_segment (t0 y0 : ℚ) (rest : List (ℚ × ℚ)) (lft rgt x : ℚ)
    (l1 : List (ℚ × ℚ)) (ta ya tb yb : ℚ) (l2 : List (ℚ × ℚ))
    (hch : List.Chain' (fun p q : ℚ × ℚ => p.1 < q.1) ((t0, y0) :: rest))
    (heq : (t0, y0) :: rest = l1 ++ (ta, ya) :: (tb, yb) :: l2)
    (hax : ta ≤ x) (hxb : x ≤ tb) :
    npInterp ((t0, y0) :: rest) lft rgt x =
      ya + (x - ta) * (yb - ya) / (tb - ta) := by
  have ht0 : t0 ≤ x := by
    cases l1 with
    | nil =>
      simp only [List.nil_append, List.cons.injEq, Prod.mk.injEq] at heq
      obtain ⟨⟨rfl, _⟩, _⟩ := heq
      exact hax
    | cons p l1' =>
      simp only [List.cons_append, List.cons.injEq] at heq
      obtain ⟨hpair, hrest⟩ := heq
      subst hrest
      have hlt := chain_lt_head_of_append l1' (t0, y0) (ta, ya) ((tb, yb) :: l2) hch
      exact le_trans (le_of_lt hlt) hax
  rw [npInterp, if_neg (not_lt.mpr ht0)]
  exact npInterpGo_segment l1 t0 y0 rest ta ya tb yb l2 rgt x hch heq hax hxb

/-- The three extrapolation/interpolation facts for one registered curve,
given its structural side conditions. -/
theorem calcDamageRatio_props (assetType hazType : String) (c : ImpactCurve)
    (hlk : curveLookup assetType hazType = some c)
    (hne : c.intensity.zip (mdrCurve c) ≠ [])
    (hch : List.Chain' (fun p q : ℚ × ℚ => p.1 < q.1) (c.intensity.zip (mdrCurve c)))
    (hhead : ((c.intensity.zip (mdrCurve c)).headD (0, 0)).1 = c.intensity.headD 0)
    (hlast : ((((c.intensity.zip (mdrCurve c))).getLast?).getD (0, 0)).1 =
      c.intensity.getLastD 0)
    (hl0 : 0 ≤ (mdrCurve c).getLastD 0) (hl1 : (mdrCurve c).getLastD 0 ≤ 1) :
    (∀ x : ℚ, x < c.intensity.headD 0 → calcDamageRatio hazType x assetType = 0) ∧
    (∀ x : ℚ, c.intensity.getLastD 0 < x →
      calcDamageRatio hazType x assetType = (mdrCurve c).getLastD 0) ∧
    (∀ (x : ℚ) (l1 : List (ℚ × ℚ)) (ta ya tb yb : ℚ) (l2 : List (ℚ × ℚ)),
      c.intensity.zip (mdrCurve c) = l1 ++ (ta, ya) :: (tb, yb) :: l2 →
      ta ≤ x → x ≤ tb →
      calcDamageRatio hazType x assetType =
        npClip (ya + (x - ta) * (yb - ya) / (tb - ta)) 0 1) := by
  have hcalc : ∀ x : ℚ, calcDamageRatio hazType x assetType =
      npClip (npInterp (c.intensity.zip (mdrCurve c)) 0 ((mdrCurve c).getLastD 0) x)
        0 1 := by
    intro x
    simp only [calcDamageRatio, hlk]
  cases hz : c.intensity.zip (mdrCurve c) with
  | nil => exact absurd hz hne
  | cons hd rest =>
    obtain ⟨t0, y0⟩ := hd
    rw [hz] at hch hhead hlast
    refine ⟨?_, ?_, ?_⟩
    · intro x hx
      rw [hcalc, hz, npInterp_left t0 y0 rest 0 _ x (by
        rw [← hhead] at hx
        simpa using hx)]
      rw [npClip]
      norm_num
    · intro x hx
      rw [hcalc, hz, npInterp_right t0 y0 rest 0 _ x hch (by rw [hlast]; exact hx)]
      rw [npClip, max_eq_left hl0, min_eq_right hl1]
    · intro x l1 ta ya tb yb l2 heq hax hxb
      rw [hcalc x, hz,
        npInterp_segment t0 y0 rest 0 _ x l1 ta ya tb yb l2 hch heq hax hxb]

/-- The ten (asset type, hazard code) pairs with a registered curve. -/
def knownCurvePairs : List (String × String) :=
  [("fpso", "WS"), ("fpso", "OW"),
   ("fixed_platform", "WS"), ("fixed_platform", "OW"),
   ("support_vessel", "WS"), ("support_vessel", "OW"),
   ("subsea_pipeline", "WS"), ("subsea_pipeline", "OW"),
   ("generic_offshore", "WS"), ("generic_offshore", "OW")]

/-- C7: for every registered (asset type, hazard code) curve,
`calc_damage_ratio` returns exactly 0 strictly below the first
calibration intensity, exactly the curve's final damage ratio above the
last one (flat extrapolation), and the clipped piecewise-linear
interpolation of MDD×PAA between adjacent calibration points. -/
theorem C7_damage_ratio (p : String × String) (hp : p ∈ knownCurvePairs) :
    ∃ c : ImpactCurve,
      curveLookup p.1 p.2 = some c ∧
      (∀ x : ℚ, x < c.intensity.headD 0 → calcDamageRatio p.2 x p.1 = 0) ∧
      (∀ x : ℚ, c.intensity.getLastD 0 < x →
        calcDamageRatio p.2 x p.1 = (mdrCurve c).getLastD 0) ∧
      (∀ (x : ℚ) (l1 : List (ℚ × ℚ)) (ta ya tb yb : ℚ) (l2 : List (ℚ × ℚ)),
        c.intensity.zip (mdrCurve c) = l1 ++ (ta, ya) :: (tb, yb) :: l2 →
        ta ≤ x → x ≤ tb →
        calcDamageRatio p.2 x p.1 =
          npClip (ya + (x - ta) * (yb - ya) / (tb - ta)) 0 1) := by
  simp only [knownCurvePairs, List.mem_cons, List.not_mem_nil, or_false] at hp
  rcases hp with rfl | rfl | rfl | rfl | rfl | rfl | rfl | rfl | rfl | rfl
  · exact ⟨fpsoWindCurve, rfl, calcDamageRatio_props "fpso" "WS" fpsoWindCurve rfl
      (by simp [mdrCurve, fpsoWindCurve])
      (by norm_num [mdrCurve, fpsoWindCurve, List.zip_cons_cons, List.chain'_cons])
      (by norm_num [mdrCurve, fpsoWindCurve, List.zip_cons_cons])
      (by norm_num [mdrCurve, fpsoWindCurve, List.zip_cons_cons, List.getLast?, List.getLastD])
      (by norm_num [mdrCurve, fpsoWindCurve, List.getLastD])
      (by norm_num [mdrCurve, fpsoWindCurve, List.getLastD])⟩
  · exact ⟨fpsoWaveCurve, rfl, calcDamageRatio_props "fpso" "OW" fpsoWaveCurve rfl
      (by simp [mdrCurve, fpsoWaveCurve])
      (by norm_num [mdrCurve, fpsoWaveCurve, List.zip_cons_cons, List.chain'_cons])
      (by norm_num [mdrCurve, fpsoWaveCurve, List.zip_cons_cons])
      (by norm_num [mdrCurve, fpsoWaveCurve, List.zip_cons_cons, List.getLast?, List.getLastD])
      (by norm_num [mdrCurve, fpsoWaveCurve, List.getLastD])
      (by norm_num [mdrCurve, fpsoWaveCurve, List.getLastD])⟩
  · exact ⟨fpsoWindCurve, rfl, calcDamageRatio_props "fixed_platform" "WS" fpsoWindCurve rfl
      (by simp [mdrCurve, fpsoWindCurve])
      (by norm_num [mdrCurve, fpsoWindCurve, List.zip_cons_cons, List.chain'_cons])
      (by norm_num [mdrCurve, fpsoWindCurve, List.zip_cons_cons])
      (by norm_num [mdrCurve, fpsoWindCurve, List.zip_cons_cons, List.getLast?, List.getLastD])
      (by norm_num [mdrCurve, fpsoWindCurve, List.getLastD])
      (by norm_num [mdrCurve, fpsoWindCurve, List.getLastD])⟩
  · exact ⟨fpsoWaveCurve, rfl, calcDamageRatio_props "fixed_platform" "OW" fpsoWaveCurve rfl
      (by simp [mdrCurve, fpsoWaveCurve])
      (by norm_num [mdrCurve, fpsoWaveCurve, List.zip_cons_cons, List.chain'_cons])
      (by norm_num [mdrCurve, fpsoWaveCurve, List.zip_cons_cons])
      (by norm_num [mdrCurve, fpsoWaveCurve, List.zip_cons_cons, List.getLast?, List.getLastD])
      (by norm_num [mdrCurve, fpsoWaveCurve, List.getLastD])
      (by norm_num [mdrCurve, fpsoWaveCurve, List.getLastD])⟩
  · exact ⟨fpsoWindCurve, rfl, calcDamageRatio_props "support_vessel" "WS" fpsoWindCurve rfl
      (by simp [mdrCurve, fpsoWindCurve])
      (by norm_num [mdrCurve, fpsoWindCurve, List.zip_cons_cons, List.chain'_cons])
      (by norm_num [mdrCurve, fpsoWindCurve, List.zip_cons_cons])
      (by norm_num [mdrCurve, fpsoWindCurve, List.zip_cons_cons, List.getLast?, List.getLastD])
      (by norm_num [mdrCurve, fpsoWindCurve, List.getLastD])
      (by norm_num [mdrCurve, fpsoWindCurve, List.getLastD])⟩
  · exact ⟨fpsoWaveCurve, rfl, calcDamageRatio_props "support_vessel" "OW" fpsoWaveCurve rfl
      (by simp [mdrCurve, fpsoWaveCurve])
      (by norm_num [mdrCurve, fpsoWaveCurve, List.zip_cons_cons, List.chain'_cons])
      (by norm_num [mdrCurve, fpsoWaveCurve, List.zip_cons_cons])
      (by norm_num [mdrCurve, fpsoWaveCurve, List.zip_cons_cons, List.getLast?, List.getLastD])
      (by norm_num [mdrCurve, fpsoWaveCurve, List.getLastD])
      (by norm_num [mdrCurve, fpsoWaveCurve, List.getLastD])⟩
  · exact ⟨subseaWindCurve, rfl, calcDamageRatio_props "subsea_pipeline" "WS" subseaWindCurve rfl
      (by simp [mdrCurve, subseaWindCurve])
      (by norm_num [mdrCurve, subseaWindCurve, List.zip_cons_cons, List.chain'_cons])
      (by norm_num [mdrCurve, subseaWindCurve, List.zip_cons_cons])
      (by norm_num [mdrCurve, subseaWindCurve, List.zip_cons_cons, List.getLast?, List.getLastD])
      (by norm_num [mdrCurve, subseaWindCurve, List.getLastD])
      (by norm_num [mdrCurve, subseaWindCurve, List.getLastD])⟩
  · exact ⟨subseaWaveCurve, rfl, calcDamageRatio_props "subsea_pipeline" "OW" subseaWaveCurve rfl
      (by simp [mdrCurve, subseaWaveCurve])
      (by norm_num [mdrCurve, subseaWaveCurve, List.zip_cons_cons, List.chain'_cons])
      (by norm_num [mdrCurve, subseaWaveCurve, List.zip_cons_cons])
      (by norm_num [mdrCurve, subseaWaveCurve, List.zip_cons_cons, List.getLast?, List.getLastD])
      (by norm_num [mdrCurve, subseaWaveCurve, List.getLastD])
      (by norm_num [mdrCurve, subseaWaveCurve, List.getLastD])⟩
  · exact ⟨genericWindStepCurve, rfl,
      calcDamageRatio_props "generic_offshore" "WS" genericWindStepCurve rfl
      (by simp [mdrCurve, genericWindStepCurve])
      (by norm_num [mdrCurve, genericWindStepCurve, List.zip_cons_cons, List.chain'_cons])
      (by norm_num [mdrCurve, genericWindStepCurve, List.zip_cons_cons])
      (by norm_num [mdrCurve, genericWindStepCurve, List.zip_cons_cons, List.getLast?,
        List.getLastD])
      (by norm_num [mdrCurve, genericWindStepCurve, List.getLastD])
      (by norm_num [mdrCurve, genericWindStepCurve, List.getLastD])⟩
  · exact ⟨genericWaveStepCurve, rfl,
      calcDamageRatio_props "generic_offshore" "OW" genericWaveStepCurve rfl
      (by simp [mdrCurve, genericWaveStepCurve])
      (by norm_num [mdrCurve, genericWaveStepCurve, List.zip_cons_cons, List.chain'_cons])
      (by norm_num [mdrCurve, genericWaveStepCurve, List.zip_cons_cons])
      (by norm_num [mdrCurve, genericWaveStepCurve, List.zip_cons_cons, List.getLast?,
        List.getLastD])
      (by norm_num [mdrCurve, genericWaveStepCurve, List.getLastD])
      (by norm_num [mdrCurve, genericWaveStepCurve, List.getLastD])⟩

/-- Witness for C7: the FPSO wind curve returns exactly 0 below its first
calibration intensity. -/
theorem C7_damage_ratio_witness :
    ("fpso", "WS") ∈ knownCurvePairs ∧ calcDamageRatio "WS" (-5) "fpso" = 0 := by
  obtain ⟨c, hc, hbelow, _, _⟩ :=
    C7_damage_ratio ("fpso", "WS") (by simp [knownCurvePairs])
  have hsome : (some fpsoWindCurve : Option ImpactCurve) = some c := by
    rw [← hc]
    rfl
  have hcc : c = fpsoWindCurve := (Option.some.inj hsome).symm
  subst hcc
  refine ⟨by simp [knownCurvePairs], ?_⟩
  apply hbelow
  norm_num [fpsoWindCurve]

/-- C1 counterexample: climada available, asset type `"fpso"` (vulnerability
capable), wind intensity series `[30]` classified `[2]`: the combined
pricing loss-per-step is `[1000000]` (discrete model), while the claim's
curve-based source gives `[240000]` — used only by the per-hazard pricing. -/
theorem C1_counterexample :
    useClimada true "fpso" = true ∧
    classifySeries 15 20 [30] = [2] ∧
    maxReduce [classifySeries 15 20 [30]] = [2] ∧
    combinedLossPerStep 1000000 (35/100) 1 [2] = [1000000] ∧
    hazardLossPerStep true "fpso" "wind" 1000000 (35/100) 1 [30] [2] = [240000] ∧
    combinedLossPerStep 1000000 (35/100) 1 [2] ≠
      [30].map (fun x => 1000000 * calcDamageRatio (hazCode "wind") x "fpso") := by
  have hdr : calcDamageRatio "WS" 30 "fpso" = 6/25 := by
    norm_num [calcDamageRatio, curveLookup, registeredAssetTypes, HAZ_WIND, HAZ_WAVE,
      fpsoWindCurve, mdrCurve, List.zip_cons_cons, npInterp, npInterpGo, npClip]
  refine ⟨by decide, by decide, by decide, ?_, ?_, ?_⟩
  · norm_num [combinedLossPerStep, discreteLossRatio, discreteLossFactor,
      stopFactor, attentionFactor, npClip]
  · have : useClimada true "fpso" = true := by decide
    rw [hazardLossPerStep, if_pos this]
    simp only [List.map_map, List.map_cons, List.map_nil, Function.comp]
    rw [show hazCode "wind" = "WS" from rfl, hdr]
    norm_num
  · rw [show hazCode "wind" = "WS" from rfl]
    simp only [List.map_cons, List.map_nil, hdr]
    have h4 : combinedLossPerStep 1000000 (35/100) 1 [2] = [1000000] := by
      norm_num [combinedLossPerStep, discreteLossRatio, discreteLossFactor,
        stopFactor, attentionFactor, npClip]
    rw [h4]
    norm_num

/-- C1 (amended): when a vulnerability-capable asset type is selected and
the curve service is available, the continuous damage-ratio model is the
loss-per-step source only for the per-hazard pricing; the combined-series
pricing always uses the legacy discrete model on the combined states. -/
theorem C1_loss_source_amended (climadaAvailable : Bool) (assetType hazard : String)
    (av alf slf : ℚ) (values : List ℚ) (status cstatus : List ℕ)
    (hcap : useClimada climadaAvailable assetType = true) :
    hazardLossPerStep climadaAvailable assetType hazard av alf slf values status =
      values.map (fun x => av * calcDamageRatio (hazCode hazard) x assetType) ∧
    combinedLossPerStep av alf slf cstatus =
      cstatus.map (fun s => av * discreteLossFactor alf slf s) := by
  constructor
  · rw [hazardLossPerStep, if_pos hcap, List.map_map]
    rfl
  · rw [combinedLossPerStep, discreteLossRatio, List.map_map]
    rfl

/-- Witness for the amended C1 at the counterexample's inputs. -/
theorem C1_loss_source_amended_witness :
    useClimada true "fpso" = true ∧
    hazardLossPerStep true "fpso" "wind" 1000000 (35/100) 1 [30] [2] =
      [30].map (fun x => 1000000 * calcDamageRatio (hazCode "wind") x "fpso") ∧
    combinedLossPerStep 1000000 (35/100) 1 [2] =
      [2].map (fun s => 1000000 * discreteLossFactor (35/100) 1 s) :=
  ⟨by decide,
   (C1_loss_source_amended true "fpso" "wind" 1000000 (35/100) 1 [30] [2] [2]
      (by decide)).1,
   (C1_loss_source_amended true "fpso" "wind" 1000000 (35/100) 1 [30] [2] [2]
      (by decide)).2⟩

/-- C10: switching the combine mode from `"worst"` to `"multiplier"` leaves
the combined state series, the score, all four hour counts, the combined
exceedance curve and percentile summary, and the whole combined actuarial
pricing block (`pricing_models`) unchanged; only `effective_stop_hours`
and the stop-cost pricing can differ. -/
theorem C10_mode_frame (stdevScaled : List ℚ → ℚ → ℚ)
    (statusMap : List (String × List ℕ)) (weights : String → Option ℚ)
    (multiplier : ℚ) (stopCostPerHour : Option ℚ) (assetValue : Option ℚ)
    (alf slf : ℚ) (exceedanceMethod riskLoadMethod : String) (rq er : ℚ) :
    (combineAndPrice stdevScaled "worst" statusMap weights multiplier stopCostPerHour
        assetValue alf slf exceedanceMethod riskLoadMethod rq er).combinedStatus =
      (combineAndPrice stdevScaled "multiplier" statusMap weights multiplier stopCostPerHour
        assetValue alf slf exceedanceMethod riskLoadMethod rq er).combinedStatus ∧
    (combineAndPrice stdevScaled "worst" statusMap weights multiplier stopCostPerHour
        assetValue alf slf exceedanceMethod riskLoadMethod rq er).score =
      (combineAndPrice stdevScaled "multiplier" statusMap weights multiplier stopCostPerHour
        assetValue alf slf exceedanceMethod riskLoadMethod rq er).score ∧
    (combineAndPrice stdevScaled "worst" statusMap weights multiplier stopCostPerHour
        assetValue alf slf exceedanceMethod riskLoadMethod rq er).operationalHours =
      (combineAndPrice stdevScaled "multiplier" statusMap weights multiplier stopCostPerHour
        assetValue alf slf exceedanceMethod riskLoadMethod rq er).operationalHours ∧
    (combineAndPrice stdevScaled "worst" statusMap weights multiplier stopCostPerHour
        assetValue alf slf exceedanceMethod riskLoadMethod rq er).attentionHours =
      (combineAndPrice stdevScaled "multiplier" statusMap weights multiplier stopCostPerHour
        assetValue alf slf exceedanceMethod riskLoadMethod rq er).attentionHours ∧
    (combineAndPrice stdevScaled "worst" statusMap weights multiplier stopCostPerHour
        assetValue alf slf exceedanceMethod riskLoadMethod rq er).stopHours =
      (combineAndPrice stdevScaled "multiplier" statusMap weights multiplier stopCostPerHour
        assetValue alf slf exceedanceMethod riskLoadMethod rq er).stopHours ∧
    (combineAndPrice stdevScaled "worst" statusMap weights multiplier stopCostPerHour
        assetValue alf slf exceedanceMethod riskLoadMethod rq er).totalHours =
      (combineAndPrice stdevScaled "multiplier" statusMap weights multiplier stopCostPerHour
        assetValue alf slf exceedanceMethod riskLoadMethod rq er).totalHours ∧
    (combineAndPrice stdevScaled "worst" statusMap weights multiplier stopCostPerHour
        assetValue alf slf exceedanceMethod riskLoadMethod rq er).exceedanceValues =
      (combineAndPrice stdevScaled "multiplier" statusMap weights multiplier stopCostPerHour
        assetValue alf slf exceedanceMethod riskLoadMethod rq er).exceedanceValues ∧
    (combineAndPrice stdevScaled "worst" statusMap weights multiplier stopCostPerHour
        assetValue alf slf exceedanceMethod riskLoadMethod rq er).exceedanceProbsOut =
      (combineAndPrice stdevScaled "multiplier" statusMap weights multiplier stopCostPerHour
        assetValue alf slf exceedanceMethod riskLoadMethod rq er).exceedanceProbsOut ∧
    (combineAndPrice stdevScaled "worst" statusMap weights multiplier stopCostPerHour
        assetValue alf slf exceedanceMethod riskLoadMethod rq er).metricsMean =
      (combineAndPrice stdevScaled "multiplier" statusMap weights multiplier stopCostPerHour
        assetValue alf slf exceedanceMethod riskLoadMethod rq er).metricsMean ∧
    (combineAndPrice stdevScaled "worst" statusMap weights multiplier stopCostPerHour
        assetValue alf slf exceedanceMethod riskLoadMethod rq er).metricsMax =
      (combineAndPrice stdevScaled "multiplier" statusMap weights multiplier stopCostPerHour
        assetValue alf slf exceedanceMethod riskLoadMethod rq er).metricsMax ∧
    (combineAndPrice stdevScaled "worst" statusMap weights multiplier stopCostPerHour
        assetValue alf slf exceedanceMethod riskLoadMethod rq er).metricsP50 =
      (combineAndPrice stdevScaled "multiplier" statusMap weights multiplier stopCostPerHour
        assetValue alf slf exceedanceMethod riskLoadMethod rq er).metricsP50 ∧
    (combineAndPrice stdevScaled "worst" statusMap weights multiplier stopCostPerHour
        assetValue alf slf exceedanceMethod riskLoadMethod rq er).metricsP90 =
      (combineAndPrice stdevScaled "multiplier" statusMap weights multiplier stopCostPerHour
        assetValue alf slf exceedanceMethod riskLoadMethod rq er).metricsP90 ∧
    (combineAndPrice stdevScaled "worst" statusMap weights multiplier stopCostPerHour
        assetValue alf slf exceedanceMethod riskLoadMethod rq er).metricsP95 =
      (combineAndPrice stdevScaled "multiplier" statusMap weights multiplier stopCostPerHour
        assetValue alf slf exceedanceMethod riskLoadMethod rq er).metricsP95 ∧
    (combineAndPrice stdevScaled "worst" statusMap weights multiplier stopCostPerHour
        assetValue alf slf exceedanceMethod riskLoadMethod rq er).metricsP99 =
      (combineAndPrice stdevScaled "multiplier" statusMap weights multiplier stopCostPerHour
        assetValue alf slf exceedanceMethod riskLoadMethod rq er).metricsP99 ∧
    (combineAndPrice stdevScaled "worst" statusMap weights multiplier stopCostPerHour
        assetValue alf slf exceedanceMethod riskLoadMethod rq er).pricingModels =
      (combineAndPrice stdevScaled "multiplier" statusMap weights multiplier stopCostPerHour
        assetValue alf slf exceedanceMethod riskLoadMethod rq er).pricingModels :=
  ⟨rfl, rfl, rfl, rfl, rfl, rfl, rfl, rfl, rfl, rfl, rfl, rfl, rfl, rfl, rfl⟩
